import Mathlib

/-!
Shallow embedding of the Item CRUD backend
(`backend/app`: `schemas/item.py`, `models/item.py`, `services/item_service.py`,
`core/exceptions.py`, `routes/items.py`).

Rows live in a `DBState` (a list of rows plus the autoincrement counter);
each service method is a pure function from the state (and its arguments)
to either an error or the new state and the returned entity, mirroring the
single-transaction-per-operation discipline of the Python code: a method
that raises leaves the stored state unchanged, which the embedding renders
by returning only an error, with no new state.
-/

/-- An `items` row (`models/item.py`): `id` integer primary key, `name`
non-nullable string, `description` nullable text, `created_at` non-nullable
timestamp (modelled as a natural number). -/
structure Item where
  id : Int
  name : String
  description : Option String
  created_at : Nat
deriving Repr, DecidableEq

/-- Pydantic constraint on `name` in `ItemBase`/`ItemUpdate`
(`schemas/item.py`): `min_length=1, max_length=255`, counted in characters,
with no trimming. -/
def validName (name : String) : Bool :=
  1 ≤ name.length && name.length ≤ 255

/-- Pydantic constraint on `description` (`schemas/item.py`):
optional, `max_length=2000`; `None` passes. -/
def validDescription : Option String → Bool
  | none => true
  | some d => d.length ≤ 2000

/-- `ItemCreate` payload (`schemas/item.py`): `name` required,
`description` optional (defaults to null when omitted). -/
structure ItemCreate where
  name : String
  description : Option String
deriving Repr, DecidableEq

/-- Whether an `ItemCreate` payload passes Pydantic validation. -/
def ItemCreate.valid (c : ItemCreate) : Bool :=
  validName c.name && validDescription c.description

/-- `ItemUpdate` payload (`schemas/item.py`): both fields optional.
The outer `Option` records field presence (Pydantic `exclude_unset`:
`none` = absent from the payload), the inner one nullability
(`some none` = explicitly null in the payload). -/
structure ItemUpdate where
  name : Option (Option String)
  description : Option (Option String)
deriving Repr, DecidableEq

/-- Whether an `ItemUpdate` payload passes Pydantic validation: a present
non-null `name` must satisfy the length bounds, a present non-null
`description` its own; absent or explicitly null fields pass (the
`str | None` annotation admits `None` before length checks apply). -/
def ItemUpdate.valid (u : ItemUpdate) : Bool :=
  (match u.name with
   | some (some n) => validName n
   | _ => true) &&
  (match u.description with
   | some (some d) => d.length ≤ 2000
   | _ => true)

/-- Leading and trailing whitespace removed from a character list. -/
def trimChars (l : List Char) : List Char :=
  ((l.dropWhile Char.isWhitespace).reverse.dropWhile Char.isWhitespace).reverse

/-- The spec's own wording of create-name validation ("trimmed length
1–255"), kept separate to compare against the code's `validName`, which
does not trim. -/
def specTrimmedValidName (name : String) : Bool :=
  1 ≤ (trimChars name.data).length && (trimChars name.data).length ≤ 255

/-- The database: the `items` table plus the autoincrement counter that
yields the next generated primary key. -/
structure DBState where
  items : List Item
  nextId : Int
deriving Repr, DecidableEq

/-- Domain errors (`core/exceptions.py` plus the storage engine's NOT NULL
rejection, which the generic handler turns into a 500). -/
inductive ServiceError where
  | notFound (resource : String) (resource_id : Option Int)
  | integrityError
deriving Repr, DecidableEq

/-- `NotFoundException.__init__` message (`core/exceptions.py`): the
id-qualified variant is chosen by Python truthiness of `resource_id`
(`if resource_id`), so `None` and `0` both fall to the plain variant. -/
def notFoundMessage (resource : String) (resource_id : Option Int) : String :=
  match resource_id with
  | some i =>
      if i ≠ 0 then
        resource ++ " with id '" ++ toString i ++ "' not found"
      else
        resource ++ " not found"
  | none => resource ++ " not found"

/-- A JSON error reply: HTTP status plus the `detail` field of the body. -/
structure ErrorResponse where
  status_code : Nat
  detail : String
deriving Repr, DecidableEq

/-- `NotFoundException` carries the resource kind and the identifier that
was given, if any (`core/exceptions.py`). -/
structure NotFoundException where
  resource : String
  resource_id : Option Int
deriving Repr, DecidableEq

/-- `self.message` as computed in `NotFoundException.__init__`. -/
def NotFoundException.message (e : NotFoundException) : String :=
  notFoundMessage e.resource e.resource_id

/-- `not_found_handler` (`core/exceptions.py`): status 404,
body `detail` = the exception's message. -/
def not_found_handler (exc : NotFoundException) : ErrorResponse :=
  { status_code := 404, detail := exc.message }

/-- `generic_exception_handler` (`core/exceptions.py`): any uncaught
exception becomes status 500 with a generic body. -/
def generic_exception_handler : ErrorResponse :=
  { status_code := 500, detail := "Internal server error" }

/-- How a service-layer error reaches the client: `NotFoundException`
through `not_found_handler`, anything else through the generic handler. -/
def errorToResponse : ServiceError → ErrorResponse
  | ServiceError.notFound r i => not_found_handler { resource := r, resource_id := i }
  | ServiceError.integrityError => generic_exception_handler

/-- `self.db.get(Item, item_id)`: the first row with the given primary key. -/
def findItem (items : List Item) (item_id : Int) : Option Item :=
  items.find? (fun i => i.id == item_id)

/-- `ItemService.create` (`services/item_service.py`): build a row from the
payload, insert it (the engine assigns `id` from the autoincrement counter
and `created_at` from the clock), commit, and return the refreshed row. -/
def ItemService.create (s : DBState) (data : ItemCreate) (now : Nat) :
    DBState × Item :=
  let item : Item :=
    { id := s.nextId, name := data.name, description := data.description,
      created_at := now }
  ({ items := s.items ++ [item], nextId := s.nextId + 1 }, item)

/-- `ItemService.get_by_id` (`services/item_service.py`): look the row up
by primary key; raise `NotFoundException("Item", item_id)` when absent. -/
def ItemService.get_by_id (s : DBState) (item_id : Int) :
    Except ServiceError Item :=
  match findItem s.items item_id with
  | some item => Except.ok item
  | none => Except.error (ServiceError.notFound "Item" (some item_id))

/-- `ItemService.update` (`services/item_service.py`): fetch the row (404
when absent, before any mutation), then `setattr` exactly the fields
present in the payload (`model_dump(exclude_unset=True)`), then commit.
A commit that would store a null `name` violates the column's NOT NULL
constraint: the transaction fails and rolls back, so no new state. -/
def ItemService.update (s : DBState) (item_id : Int) (data : ItemUpdate) :
    Except ServiceError (DBState × Item) :=
  match findItem s.items item_id with
  | none => Except.error (ServiceError.notFound "Item" (some item_id))
  | some item =>
      let newName : Option String :=
        match data.name with
        | none => some item.name
        | some v => v
      let newDescription : Option String :=
        match data.description with
        | none => item.description
        | some v => v
      match newName with
      | none => Except.error ServiceError.integrityError
      | some n =>
          let updated : Item :=
            { item with name := n, description := newDescription }
          Except.ok
            ({ s with
                items := s.items.map
                  (fun i => if i.id == item_id then updated else i) },
             updated)

/-- `ItemService.delete` (`services/item_service.py`): fetch the row (404
when absent), then physically remove it and commit. -/
def ItemService.delete (s : DBState) (item_id : Int) :
    Except ServiceError DBState :=
  match findItem s.items item_id with
  | none => Except.error (ServiceError.notFound "Item" (some item_id))
  | some _ =>
      Except.ok { s with items := s.items.filter (fun i => i.id != item_id) }

/-- Insert one row into a list already sorted by `created_at` descending. -/
def insertByCreatedDesc (x : Item) : List Item → List Item
  | [] => [x]
  | y :: ys =>
      if y.created_at ≤ x.created_at then x :: y :: ys
      else y :: insertByCreatedDesc x ys

/-- `ORDER BY created_at DESC`: a sort of the table by `created_at`
descending (insertion sort; which permutation the engine picks among rows
with equal timestamps is unspecified, so only sortedness and being a
permutation of the table are used in theorems). -/
def sortByCreatedDesc : List Item → List Item
  | [] => []
  | x :: xs => insertByCreatedDesc x (sortByCreatedDesc xs)

/-- `ItemService.get_all` (`services/item_service.py`):
`select(Item).offset(skip).limit(limit).order_by(created_at. desc())` —
the ordering applies to the whole select, then `skip` rows are skipped and
at most `limit` returned. No server-side cap on `limit`. -/
def ItemService.get_all (s : DBState) (skip : Nat) (limit : Nat) :
    List Item :=
  ((sortByCreatedDesc s.items).drop skip).take limit

/-- Route-layer defaults (`routes/items.py`): `skip: int = 0`. -/
def DEFAULT_SKIP : Nat := 0

/-- Route-layer defaults (`routes/items.py`): `limit: int = 100`. -/
def DEFAULT_LIMIT : Nat := 100

/-- `list_items` route handler (`routes/items.py`): query parameters
`skip` and `limit` are optional with defaults 0 and 100, passed through
to `ItemService.get_all`. -/
def list_items (s : DBState) (skip : Option Nat) (limit : Option Nat) :
    List Item :=
  ItemService.get_all s (skip.getD DEFAULT_SKIP) (limit.getD DEFAULT_LIMIT)

/-- `create_item` route (`routes/items.py`) together with FastAPI's
validation gate: an invalid body never reaches the service and yields
status 422 leaving the state unchanged; a valid one is created and
returned with status 201. -/
def create_item (s : DBState) (payload : ItemCreate) (now : Nat) :
    Nat × DBState × Option Item :=
  if payload.valid then
    let r := ItemService.create s payload now
    (201, r.1, some r.2)
  else
    (422, s, none)

/-- Well-formedness the storage engine guarantees: primary keys are
unique, and every stored key is below the autoincrement counter. -/
def WF (s : DBState) : Prop :=
  (s.items.map Item.id).Nodup ∧ ∀ i ∈ s.items, i.id < s.nextId

/-- The descending-timestamp order `ORDER BY created_at DESC` sorts by. -/
def itemGE (a b : Item) : Prop := b.created_at ≤ a.created_at

lemma findItem_some {items : List Item} {item_id : Int} {it : Item}
    (h : findItem items item_id = some it) : it ∈ items ∧ it.id = item_id := by
  unfold findItem at h
  refine ⟨List.mem_of_find?_eq_some h, ?_⟩
  have hp := List.find?_some h
  simpa using hp

lemma map_eq_self_of_mem {l : List Item} {f : Item → Item}
    (h : ∀ i ∈ l, f i = i) : l.map f = l := by
  induction l with
  | nil => rfl
  | cons x xs ih =>
      simp only [List.map_cons]
      rw [h x (by simp), ih fun i hi => h i (by simp [hi])]

lemma perm_insertByCreatedDesc (x : Item) (l : List Item) :
    List.Perm (insertByCreatedDesc x l) (x :: l) := by
  induction l with
  | nil => simp [insertByCreatedDesc]
  | cons y ys ih =>
      unfold insertByCreatedDesc
      by_cases hle : y.created_at ≤ x.created_at
      · simp [hle]
      · simp only [hle, if_false]
        exact (ih.cons y).trans (List.Perm.swap x y ys)

lemma perm_sortByCreatedDesc (l : List Item) :
    List.Perm (sortByCreatedDesc l) l := by
  induction l with
  | nil => simp [sortByCreatedDesc]
  | cons x xs ih =>
      unfold sortByCreatedDesc
      exact (perm_insertByCreatedDesc x (sortByCreatedDesc xs)).trans (ih.cons x)

lemma sorted_insertByCreatedDesc {x : Item} {l : List Item}
    (h : List.Sorted itemGE l) :
    List.Sorted itemGE (insertByCreatedDesc x l) := by
  induction l with
  | nil => simp [insertByCreatedDesc]
  | cons y ys ih =>
      rw [List.sorted_cons] at h
      obtain ⟨hy, hys⟩ := h
      unfold insertByCreatedDesc
      by_cases hle : y.created_at ≤ x.created_at
      · simp only [hle, if_true]
        rw [List.sorted_cons]
        refine ⟨?_, ?_⟩
        · intro b hb
          rcases List.mem_cons.mp hb with hb | hb
          · subst hb; exact hle
          · exact le_trans (hy b hb) hle
        · rw [List.sorted_cons]; exact ⟨hy, hys⟩
      · simp only [hle, if_false]
        rw [List.sorted_cons]
        refine ⟨?_, ih hys⟩
        intro b hb
        have hmem := (perm_insertByCreatedDesc x ys).mem_iff.mp hb
        rcases List.mem_cons.mp hmem with hb' | hb'
        · subst hb'
          exact le_of_lt (Nat.lt_of_not_le hle)
        · exact hy b hb'

lemma sorted_sortByCreatedDesc (l : List Item) :
    List.Sorted itemGE (sortByCreatedDesc l) := by
  induction l with
  | nil => simp [sortByCreatedDesc]
  | cons x xs ih =>
      unfold sortByCreatedDesc
      exact sorted_insertByCreatedDesc ih

/-- C4: for an id with no row, `get_by_id`, `update` and `delete` each fail
with `NotFound` carrying that id; since the embedding returns a new state
only on success, a failing `update` or `delete` leaves the stored state
unchanged (errors carry no state), and `update` in particular raises
before any mutation. -/
theorem spec_C4_notfound_ops (s : DBState) (item_id : Int) (u : ItemUpdate)
    (h : findItem s.items item_id = none) :
    ItemService.get_by_id s item_id
      = Except.error (ServiceError.notFound "Item" (some item_id)) ∧
    ItemService.update s item_id u
      = Except.error (ServiceError.notFound "Item" (some item_id)) ∧
    ItemService.delete s item_id
      = Except.error (ServiceError.notFound "Item" (some item_id)) := by
  refine ⟨?_, ?_, ?_⟩ <;>
    simp [ItemService.get_by_id, ItemService.update, ItemService.delete, h]

theorem spec_C4_notfound_ops_witness :
    findItem (DBState.mk [] 1).items 7 = none ∧
    (ItemService.get_by_id (DBState.mk [] 1) 7
        = Except.error (ServiceError.notFound "Item" (some 7)) ∧
     ItemService.update (DBState.mk [] 1) 7 (ItemUpdate.mk none none)
        = Except.error (ServiceError.notFound "Item" (some 7)) ∧
     ItemService.delete (DBState.mk [] 1) 7
        = Except.error (ServiceError.notFound "Item" (some 7))) :=
  ⟨rfl, spec_C4_notfound_ops (DBState.mk [] 1) 7 (ItemUpdate.mk none none) rfl⟩

/-- C2 (counterexample): the claim reads validation through *trimmed*
length, but Pydantic's `min_length`/`max_length` do not trim: the
one-space name has trimmed length 0, outside 1–255, yet the code
accepts it. -/
theorem spec_C2_counterexample :
    ItemCreate.valid (ItemCreate.mk " " none) = true ∧
    specTrimmedValidName " " = false := by
  constructor
  · decide
  · decide

set_option maxRecDepth 4000 in
/-- C2 (amended): create-input validation accepts a name exactly when its
untrimmed character length is between 1 and 255, and a description exactly
when it is absent, null, or of length at most 2000; name `""` is rejected
(422, state unchanged), a name of length 256 is rejected, and one of
length 255 is accepted (201). -/
theorem spec_C2_create_validation (c : ItemCreate) (s : DBState) (now : Nat) :
    (ItemCreate.valid c = true ↔
      (1 ≤ c.name.length ∧ c.name.length ≤ 255 ∧
       (c.description = none ∨
        ∃ d, c.description = some d ∧ d.length ≤ 2000))) ∧
    ItemCreate.valid (ItemCreate.mk "" none) = false ∧
    (create_item s (ItemCreate.mk "" none) now).1 = 422 ∧
    (create_item s (ItemCreate.mk "" none) now).2.1 = s ∧
    ItemCreate.valid (ItemCreate.mk (String.mk (List.replicate 256 'a')) none)
      = false ∧
    ItemCreate.valid (ItemCreate.mk (String.mk (List.replicate 255 'a')) none)
      = true := by
  refine ⟨?_, by decide, ?_, ?_, by decide, by decide⟩
  · rcases c with ⟨n, d⟩
    cases d <;> simp [ItemCreate.valid, validName, validDescription, and_assoc]
  · simp [create_item, (by decide : ItemCreate.valid (ItemCreate.mk "" none) = false)]
  · simp [create_item, (by decide : ItemCreate.valid (ItemCreate.mk "" none) = false)]

/-- C5 (counterexample): the claim promises the id-qualified body for
every given identifier, id 0 included; but `NotFoundException` chooses
by Python truthiness (`if resource_id`), so id 0 yields the plain
`"Item not found"`, not `"Item with id '0' not found"`. -/
theorem spec_C5_counterexample :
    (not_found_handler (NotFoundException.mk "Item" (some 0))).status_code
      = 404 ∧
    (not_found_handler (NotFoundException.mk "Item" (some 0))).detail
      = "Item not found" ∧
    (not_found_handler (NotFoundException.mk "Item" (some 0))).detail
      ≠ "Item with id '0' not found" := by
  refine ⟨rfl, rfl, ?_⟩
  decide

/-- C5 (amended): every not-found failure maps to status 404 whose body
`detail` is the id-qualified variant exactly when a nonzero identifier was
given; with no identifier, or with identifier 0 (falsy in Python), the
plain `"<Resource> not found"` body is returned. -/
theorem spec_C5_not_found_response (r : String) (k : Int) :
    (not_found_handler (NotFoundException.mk r (some k))).status_code
      = 404 ∧
    (not_found_handler (NotFoundException.mk r none)).status_code = 404 ∧
    (not_found_handler (NotFoundException.mk r (some k))).detail
      = (if k ≠ 0 then r ++ " with id '" ++ toString k ++ "' not found"
         else r ++ " not found") ∧
    (not_found_handler (NotFoundException.mk r none)).detail
      = r ++ " not found" ∧
    errorToResponse (ServiceError.notFound r (some k))
      = not_found_handler (NotFoundException.mk r (some k)) := by
  exact ⟨rfl, rfl, rfl, rfl, rfl⟩

/-- C6: `list_items` returns the table sorted by `created_at` descending
(a sorted permutation of the stored rows), then drops the first `skip` and
takes at most `limit`; its length is `min limit (count - skip)` — no
server-side cap on `limit`; omitted query parameters default to
`skip = 0`, `limit = 100`; an empty table yields `[]` with no error. -/
theorem spec_C6_list_pagination (s : DBState) (skip limit : Nat) :
    list_items s (some skip) (some limit)
      = ((sortByCreatedDesc s.items).drop skip).take limit ∧
    List.Perm (sortByCreatedDesc s.items) s.items ∧
    List.Sorted itemGE (sortByCreatedDesc s.items) ∧
    (list_items s (some skip) (some limit)).length
      = min limit (s.items.length - skip) ∧
    list_items s none none
      = ((sortByCreatedDesc s.items).drop DEFAULT_SKIP).take DEFAULT_LIMIT ∧
    list_items (DBState.mk [] s.nextId) (some skip) (some limit) = [] := by
  refine ⟨rfl, perm_sortByCreatedDesc _, sorted_sortByCreatedDesc _, ?_, rfl, ?_⟩
  · simp [list_items, ItemService.get_all, List.length_take, List.length_drop,
      (perm_sortByCreatedDesc s.items).length_eq]
  · simp [list_items, ItemService.get_all, sortByCreatedDesc]

/-- C7: `create` returns the persisted entity: its `id` is the generated
key (present, never null), its `created_at` is the commit-time clock value,
which is at or after the time the request was issued; when the payload
omits `description` the returned entity's `description` is null; the
entity is persisted (a member of the new table). -/
theorem spec_C7_create_returns (s : DBState) (n : String) (d : Option String)
    (now requestTime : Nat) (h : requestTime ≤ now) :
    (ItemService.create s (ItemCreate.mk n d) now).2.id = s.nextId ∧
    (ItemService.create s (ItemCreate.mk n d) now).2.name = n ∧
    (ItemService.create s (ItemCreate.mk n d) now).2.created_at = now ∧
    requestTime ≤ (ItemService.create s (ItemCreate.mk n d) now).2.created_at ∧
    (ItemService.create s (ItemCreate.mk n none) now).2.description = none ∧
    (ItemService.create s (ItemCreate.mk n d) now).2
      ∈ (ItemService.create s (ItemCreate.mk n d) now).1.items := by
  refine ⟨rfl, rfl, rfl, h, rfl, ?_⟩
  simp [ItemService.create]

theorem spec_C7_create_returns_witness :
    (3 : Nat)
      ≤ (ItemService.create (DBState.mk [] 1) (ItemCreate.mk "a" none) 5).2.created_at :=
  (spec_C7_create_returns (DBState.mk [] 1) "a" none 5 3 (by decide)).2.2.2.1

/-- C8: a successful `delete` physically removes the row, so a subsequent
`get_by_id` with the same id fails with `NotFound`, and repeating the
`delete` also fails with `NotFound` (idempotent failure); deleting a
nonexistent id fails with `NotFound` rather than succeeding. -/
theorem spec_C8_delete_removes (s : DBState) (item_id : Int) :
    (∀ s', ItemService.delete s item_id = Except.ok s' →
        ItemService.get_by_id s' item_id
          = Except.error (ServiceError.notFound "Item" (some item_id)) ∧
        ItemService.delete s' item_id
          = Except.error (ServiceError.notFound "Item" (some item_id))) ∧
    (findItem s.items item_id = none →
        ItemService.delete s item_id
          = Except.error (ServiceError.notFound "Item" (some item_id))) := by
  constructor
  · intro s' hok
    unfold ItemService.delete at hok
    cases hfind : findItem s.items item_id with
    | none => rw [hfind] at hok; exact absurd hok (by simp)
    | some it =>
        rw [hfind] at hok
        simp only [Except.ok.injEq] at hok
        have hnone : findItem s'.items item_id = none := by
          rw [← hok]
          unfold findItem
          rw [List.find?_eq_none]
          intro a ha
          have hmem := List.mem_filter.mp ha
          simpa using hmem.2
        constructor
        · simp [ItemService.get_by_id, hnone]
        · simp [ItemService.delete, hnone]
  · intro hfind
    simp [ItemService.delete, hfind]

lemma findItem_append_fresh {items : List Item} {it : Item}
    (h : ∀ i ∈ items, i.id ≠ it.id) :
    findItem (items ++ [it]) it.id = some it := by
  induction items with
  | nil => simp [findItem]
  | cons x xs ih =>
      unfold findItem
      rw [List.cons_append, List.find?_cons_of_neg]
      · exact ih fun i hi => h i (List.mem_cons_of_mem x hi)
      · simp
        exact h x (List.mem_cons_self x xs)

/-- C10: the entity returned by `create`, when immediately fetched by its
id via `get_by_id`, is returned unchanged — equal in all fields (`id`,
`name`, `description`, `created_at`). -/
theorem spec_C10_create_get_round_trip (s : DBState) (data : ItemCreate)
    (now : Nat) (hwf : WF s) :
    ItemService.get_by_id (ItemService.create s data now).1
        (ItemService.create s data now).2.id
      = Except.ok (ItemService.create s data now).2 := by
  obtain ⟨-, hlt⟩ := hwf
  have hfind : findItem (s.items ++ [(ItemService.create s data now).2])
      (ItemService.create s data now).2.id
      = some (ItemService.create s data now).2 :=
    findItem_append_fresh fun i hi => ne_of_lt (hlt i hi)
  simp [ItemService.get_by_id]
  rw [show (ItemService.create s data now).1.items
      = s.items ++ [(ItemService.create s data now).2] from rfl, hfind]

theorem spec_C10_create_get_round_trip_witness :
    WF (DBState.mk [] 1) ∧
    ItemService.get_by_id
        (ItemService.create (DBState.mk [] 1) (ItemCreate.mk "a" none) 6).1
        (ItemService.create (DBState.mk [] 1) (ItemCreate.mk "a" none) 6).2.id
      = Except.ok (ItemService.create (DBState.mk [] 1) (ItemCreate.mk "a" none) 6).2 :=
  ⟨⟨by simp, by simp⟩,
   spec_C10_create_get_round_trip (DBState.mk [] 1) (ItemCreate.mk "a" none) 6
     ⟨by simp, by simp⟩⟩

lemma update_ok_destruct {s : DBState} {item_id : Int} {data : ItemUpdate}
    {s' : DBState} {u : Item}
    (hok : ItemService.update s item_id data = Except.ok (s', u)) :
    ∃ item0, findItem s.items item_id = some item0 ∧
      u.id = item0.id ∧ u.created_at = item0.created_at ∧
      (match data.name with
       | none => some item0.name
       | some v => v) = some u.name ∧
      u.description = (match data.description with
        | none => item0.description
        | some v => v) ∧
      s' = { s with
              items := s.items.map
                (fun i => if i.id == item_id then u else i) } := by
  unfold ItemService.update at hok
  cases hfind : findItem s.items item_id with
  | none => rw [hfind] at hok; exact absurd hok (by simp)
  | some item0 =>
      rw [hfind] at hok
      refine ⟨item0, rfl, ?_⟩
      cases hname : data.name with
      | none =>
          simp only [hname] at hok
          simp only [Except.ok.injEq, Prod.mk.injEq] at hok
          obtain ⟨hs, hu⟩ := hok
          subst hs
          subst hu
          exact ⟨rfl, rfl, rfl, rfl, rfl⟩
      | some v =>
          cases v with
          | none => simp only [hname] at hok; exact absurd hok (by simp)
          | some n =>
              simp only [hname] at hok
              simp only [Except.ok.injEq, Prod.mk.injEq] at hok
              obtain ⟨hs, hu⟩ := hok
              subst hs
              subst hu
              exact ⟨rfl, rfl, rfl, rfl, rfl⟩

lemma id_injective_of_wf {s : DBState} (hwf : WF s) {a b : Item}
    (ha : a ∈ s.items) (hb : b ∈ s.items) (h : a.id = b.id) : a = b :=
  List.inj_on_of_nodup_map hwf.1 ha hb h

lemma map_map_eq_of {α : Type} (g : Item → α) (f : Item → Item)
    (l : List Item) (h : ∀ i ∈ l, g (f i) = g i) :
    (l.map f).map g = l.map g := by
  induction l with
  | nil => rfl
  | cons x xs ih =>
      simp only [List.map_cons]
      rw [h x (by simp), ih fun i hi => h i (by simp [hi])]

/-- C1: a successful `update` changes exactly the fields present in the
payload: an absent `name` or `description` keeps its old value, a present
field takes the payload's value, `id` and `created_at` never change; with
an empty payload the returned entity equals the stored one and the whole
stored state is unchanged. -/
theorem spec_C1_update_frame (s : DBState) (item_id : Int)
    (data : ItemUpdate) (s' : DBState) (item0 u : Item)
    (hwf : WF s)
    (hfind : findItem s.items item_id = some item0)
    (hok : ItemService.update s item_id data = Except.ok (s', u)) :
    (data.name = none → u.name = item0.name) ∧
    (data.description = none → u.description = item0.description) ∧
    (∀ v, data.name = some (some v) → u.name = v) ∧
    (∀ v, data.description = some v → u.description = v) ∧
    u.id = item0.id ∧
    u.created_at = item0.created_at ∧
    (data.name = none → data.description = none → u = item0 ∧ s' = s) := by
  obtain ⟨it, hfind', hid, hcre, hname, hdesc, hs⟩ := update_ok_destruct hok
  have hit : it = item0 := Option.some.inj (hfind'.symm.trans hfind)
  subst hit
  obtain ⟨hmem, hitid⟩ := findItem_some hfind
  refine ⟨?_, ?_, ?_, ?_, hid, hcre, ?_⟩
  · intro hn; rw [hn] at hname; exact (Option.some.inj hname).symm
  · intro hd; rw [hd] at hdesc; exact hdesc
  · intro v hn; rw [hn] at hname; exact (Option.some.inj hname).symm
  · intro v hd; rw [hd] at hdesc; exact hdesc
  · intro hn hd
    rw [hn] at hname
    rw [hd] at hdesc
    have hun : u.name = it.name := (Option.some.inj hname).symm
    have hueq : u = it := by
      calc u = Item.mk u.id u.name u.description u.created_at := rfl
        _ = Item.mk it.id it.name it.description it.created_at := by
              rw [hid, hcre, hun, hdesc]
        _ = it := rfl
    refine ⟨hueq, ?_⟩
    rw [hs]
    have hmap : s.items.map (fun i => if i.id == item_id then u else i)
        = s.items := by
      apply map_eq_self_of_mem
      intro i hi
      by_cases hcase : i.id = item_id
      · have : i = it := id_injective_of_wf hwf hi hmem (hcase.trans hitid.symm)
        simp [hcase, this, hueq]
      · simp [hcase]
    rw [hmap]

theorem spec_C1_update_frame_witness :
    ItemService.update (DBState.mk [Item.mk 1 "a" (some "d") 0] 2) 1
        (ItemUpdate.mk none none)
      = Except.ok
          (DBState.mk [Item.mk 1 "a" (some "d") 0] 2,
           Item.mk 1 "a" (some "d") 0) ∧
    (Item.mk 1 "a" (some "d") 0 = Item.mk 1 "a" (some "d") 0 ∧
     DBState.mk [Item.mk 1 "a" (some "d") 0] 2
       = DBState.mk [Item.mk 1 "a" (some "d") 0] 2) :=
  ⟨rfl,
   (spec_C1_update_frame (DBState.mk [Item.mk 1 "a" (some "d") 0] 2) 1
      (ItemUpdate.mk none none) (DBState.mk [Item.mk 1 "a" (some "d") 0] 2)
      (Item.mk 1 "a" (some "d") 0) (Item.mk 1 "a" (some "d") 0)
      ⟨by decide, by decide⟩ rfl rfl).2.2.2.2.2.2 rfl rfl⟩

lemma validName_ne_empty {n : String} (h : validName n = true) : n ≠ "" := by
  intro he
  subst he
  revert h
  decide

/-- C3: after validation, no persisted item ever has an empty (or, by the
NOT NULL column type, null) name: `create` with a valid payload and any
successful `update` with a valid payload preserve the all-names-nonempty
invariant, and an update payload that explicitly supplies `name` as null
never commits (the NOT NULL constraint rejects it), so it cannot produce
a persisted item with a null name; only `description` can be nulled. -/
theorem spec_C3_name_never_empty (s : DBState) (item_id : Int)
    (c : ItemCreate) (u : ItemUpdate) (now : Nat)
    (hinv : ∀ i ∈ s.items, i.name ≠ "")
    (hc : c.valid = true) (hu : u.valid = true) :
    (∀ i ∈ (ItemService.create s c now).1.items, i.name ≠ "") ∧
    (∀ s' upd, ItemService.update s item_id u = Except.ok (s', upd) →
        ∀ i ∈ s'.items, i.name ≠ "") ∧
    (u.name = some none →
        ∀ s' upd, ItemService.update s item_id u ≠ Except.ok (s', upd)) := by
  have hcname : validName c.name = true := by
    have h := hc
    simp only [ItemCreate.valid, Bool.and_eq_true] at h
    exact h.1
  refine ⟨?_, ?_, ?_⟩
  · intro i hi
    unfold ItemService.create at hi
    simp only [List.mem_append, List.mem_singleton] at hi
    rcases hi with hi | hi
    · exact hinv i hi
    · subst hi
      exact validName_ne_empty hcname
  · intro s' upd hok i hi
    obtain ⟨item0, hfind, hid, hcre, hname, hdesc, hs⟩ := update_ok_destruct hok
    obtain ⟨hmem0, -⟩ := findItem_some hfind
    have hupd : upd.name ≠ "" := by
      cases hn : u.name with
      | none =>
          rw [hn] at hname
          rw [← Option.some.inj hname]
          exact hinv item0 hmem0
      | some v =>
          cases v with
          | none => rw [hn] at hname; exact absurd hname (by simp)
          | some n =>
              rw [hn] at hname
              rw [← Option.some.inj hname]
              have hv : validName n = true := by
                have h := hu
                simp only [ItemUpdate.valid, Bool.and_eq_true] at h
                have h1 := h.1
                simp only [hn] at h1
                exact h1
              exact validName_ne_empty hv
    rw [hs] at hi
    simp only [List.mem_map] at hi
    obtain ⟨j, hj, hji⟩ := hi
    by_cases hcase : j.id == item_id
    · rw [← hji]; simp only [hcase, if_true]; exact hupd
    · rw [← hji]; simp only [hcase, if_false]; exact hinv j hj
  · intro hn s' upd hok
    unfold ItemService.update at hok
    cases hfind : findItem s.items item_id with
    | none => rw [hfind] at hok; exact absurd hok (by simp)
    | some item0 =>
        rw [hfind] at hok
        simp only [hn] at hok
        exact absurd hok (by simp)

theorem spec_C3_name_never_empty_witness :
    ItemService.update (DBState.mk [Item.mk 1 "a" none 0] 2) 1
        (ItemUpdate.mk (some none) none)
      ≠ Except.ok (DBState.mk [Item.mk 1 "a" none 0] 2, Item.mk 1 "a" none 0) :=
  ((spec_C3_name_never_empty (DBState.mk [Item.mk 1 "a" none 0] 2) 1
      (ItemCreate.mk "b" none) (ItemUpdate.mk (some none) none) 5
      (by decide) (by decide) (by decide)).2.2 rfl)
    (DBState.mk [Item.mk 1 "a" none 0] 2) (Item.mk 1 "a" none 0)

/-- C9: `id` and `created_at` are set exactly once, at creation (`create`
assigns the generated key and the commit-time clock and only appends), and
no update payload can alter either: `ItemUpdate` carries only `name` and
`description`, and a successful `update` leaves every row's `id` and
`created_at` — and the key counter — exactly as they were. -/
theorem spec_C9_id_created_at_immutable (s : DBState) (item_id : Int)
    (u : ItemUpdate) (c : ItemCreate) (now : Nat) (hwf : WF s) :
    (∀ s' upd, ItemService.update s item_id u = Except.ok (s', upd) →
        s'.items.map (fun i => (i.id, i.created_at))
          = s.items.map (fun i => (i.id, i.created_at)) ∧
        s'.nextId = s.nextId) ∧
    (ItemService.create s c now).2.id = s.nextId ∧
    (ItemService.create s c now).2.created_at = now ∧
    (ItemService.create s c now).1.items
      = s.items ++ [(ItemService.create s c now).2] := by
  refine ⟨?_, rfl, rfl, rfl⟩
  intro s' upd hok
  obtain ⟨item0, hfind, hid, hcre, hname, hdesc, hs⟩ := update_ok_destruct hok
  obtain ⟨hmem0, hid0⟩ := findItem_some hfind
  subst hs
  refine ⟨?_, rfl⟩
  apply map_map_eq_of
  intro i hi
  by_cases hcase : i.id = item_id
  · have hieq : i = item0 := id_injective_of_wf hwf hi hmem0 (hcase.trans hid0.symm)
    simp only [hcase, beq_self_eq_true, if_true]
    rw [hid, hcre, hieq, hid0]
  · simp [hcase]

theorem spec_C9_id_created_at_immutable_witness :
    (ItemService.create (DBState.mk [] 1) (ItemCreate.mk "a" none) 9).2.id
      = (DBState.mk [] 1).nextId :=
  (spec_C9_id_created_at_immutable (DBState.mk [] 1) 3 (ItemUpdate.mk none none)
      (ItemCreate.mk "a" none) 9 ⟨by decide, by decide⟩).2.1
